import Mathlib

/-!
Verification of the decorator-driven Express routing adapter
(`src/express.ts`, `src/middleware.ts`, `src/errors/*`).

The development shallowly embeds the adapter's functions as Lean
definitions:

* JavaScript values reachable by the parameter extractor are modelled by
  `Val` (undefined, strings, numbers, booleans, plain objects);
  truthiness and property access follow JavaScript semantics.
* `extractParameters` / `getParam` mirror the functions of the same
  names in `src/express.ts`; JS array writes `args[index] = v` (which
  extend the array with holes that read back as `undefined`) are
  modelled by `setIdx`/`getArg`.
* The generated route handler (`routeHandler`) is modelled by its
  observable effect: the controller-method call is abstracted as its
  outcome (`MethodResult`: an immediate value, a promise that resolves
  or rejects, or a synchronous throw), and the response object as a
  `headersSent` flag plus a trace of `res.status` / `res.send` events.
* The two versions of `middlewareHandler`/`invokeMiddleware` present in
  the sources are embedded separately (`invokeMiddlewareV1`,
  `invokeMiddlewareV2`); `new C()` allocation is modelled by a fresh-id
  counter threaded through the invocation.
* The HTTP error classes are embedded as records; the `HttpError` base
  class is not among the given sources and is modelled from the spec.
-/

set_option autoImplicit false

namespace ExpressAdapter

/-- JavaScript values as far as the adapter inspects them: `undefined`,
strings, numbers, booleans and plain objects (association lists of
named fields). -/
inductive Val : Type where
  | undefined : Val
  | str (s : String) : Val
  | num (n : Int) : Val
  | bool (b : Bool) : Val
  | obj (fields : List (String × Val)) : Val

/-- JavaScript truthiness for `Val` (`undefined`, `''`, `0`, `false`
are falsy; objects are always truthy). -/
def truthy : Val → Bool
  | .undefined => false
  | .str s => s ≠ ""
  | .num n => n ≠ 0
  | .bool b => b
  | .obj _ => true

/-- JavaScript property read `v[name]`: field lookup on objects
(missing fields read as `undefined`); property reads on primitives
yield `undefined` for the fields the adapter uses. -/
def lookupField : Val → String → Val
  | .obj fields, name =>
    match fields.lookup name with
    | some v => v
    | none => .undefined
  | _, _ => .undefined

/-- `getParam` from `src/express.ts`:
`const param = paramType ? source[paramType] || source : source;
 return name ? param[name] : param`.
`Option` models the optional arguments; the `= ""` tests model JS
string falsiness of `paramType`/`name`. -/
def getParam (source : Val) (paramType : Option String) (name : Option String) : Val :=
  let param :=
    match paramType with
    | some pt =>
      if pt = "" then source
      else if truthy (lookupField source pt) then lookupField source pt else source
    | none => source
  match name with
  | some n => if n = "" then param else lookupField param n
  | none => param

/-- `ParameterType` from the metadata module: the source kinds a
declared parameter can dispatch on. -/
inductive ParameterType : Type where
  | RESPONSE | REQUEST | NEXT | PARAMS | QUERY | BODY | HEADERS | COOKIES
  deriving DecidableEq

/-- `ParameterConfiguration`: one declared parameter
(`{ name, index, type }` as destructured in `extractParameters`). -/
structure ParameterConfiguration : Type where
  name : Option String
  index : Nat
  type : ParameterType
  deriving DecidableEq

/-- An element of the positional argument array built by
`extractParameters`: a plain value, the response object, or the `next`
continuation (the latter two are opaque framework objects). -/
inductive ArgV : Type where
  | val (v : Val) : ArgV
  | resV : ArgV
  | nextV : ArgV

/-- JS array write `args[index] = v`: in-range writes overwrite, writes
past the end extend the array with holes, and holes read back as
`undefined`. -/
def setIdx (l : List ArgV) (i : Nat) (v : ArgV) : List ArgV :=
  if i < l.length then l.set i v
  else l ++ List.replicate (i - l.length) (ArgV.val .undefined) ++ [v]

/-- JS array read `args[j]` (out-of-range reads yield `undefined`). -/
def getArg (l : List ArgV) (j : Nat) : ArgV :=
  l.getD j (ArgV.val .undefined)

/-- One arm of the `switch (type)` in `extractParameters`: the value
stored at the parameter's index for a given request object. -/
def dispatch (req : Val) (p : ParameterConfiguration) : ArgV :=
  match p.type with
  | .RESPONSE => .resV
  | .REQUEST => .val (getParam req none p.name)
  | .NEXT => .nextV
  | .PARAMS => .val (getParam req (some "params") p.name)
  | .QUERY => .val (getParam req (some "query") p.name)
  | .BODY => .val (getParam req (some "body") p.name)
  | .HEADERS => .val (getParam req (some "headers") p.name)
  | .COOKIES => .val (getParam req (some "cookies") p.name)

/-- `extractParameters` from `src/express.ts`: starting from `[]`, each
declared parameter writes its dispatched value at its positional index
(the response object and `next` are the opaque markers of `ArgV`). -/
def extractParameters (req : Val) (params : List ParameterConfiguration) : List ArgV :=
  params.foldl (fun args p => setIdx args p.index (dispatch req p)) []

/-- The request sub-object consulted for each named source kind
(`undefined` for the kinds that take the request/response/next
directly). -/
def subObjectKey : ParameterType → Option String
  | .PARAMS => some "params"
  | .QUERY => some "query"
  | .BODY => some "body"
  | .HEADERS => some "headers"
  | .COOKIES => some "cookies"
  | _ => none

/-- Errors thrown/rejected by controller or middleware logic: an
opaque application error (tagged by a number) or the `TypeError`
JavaScript raises when calling a method on `undefined`. -/
inductive Err : Type where
  | user (n : Nat) : Err
  | typeError : Err
  deriving DecidableEq

/-- An observable action on the response object: `res.status(n)` or
`res.send(v)`. -/
inductive REvent : Type where
  | setStatus (n : Nat) : REvent
  | send (v : Val) : REvent

/-- The response object as the route handler observes it: the
`headersSent` flag plus the trace of status/send calls performed so
far.  `res.send` marks headers as sent. -/
structure ResState : Type where
  headersSent : Bool
  events : List REvent

/-- The outcome of the controller-method call made inside the route
handler: a promise that resolves (possibly to `undefined`, modelled by
`none`) or rejects, an immediate (non-promise) value, or a synchronous
throw. -/
inductive MethodResult : Type where
  | promise (outcome : Except Err (Option Val)) : MethodResult
  | immediate (r : Option Val) : MethodResult
  | throws (e : Err) : MethodResult

/-- The observable outcome of one route-handler invocation: the final
response state together with the arguments of the `next` calls made,
or an exception escaping the handler uncaught. -/
inductive HandlerOutcome : Type where
  | ok (res : ResState) (nextCalls : List Err) : HandlerOutcome
  | uncaught (e : Err) : HandlerOutcome

/-- `if (status) { res.status(status) }` — the declared status is set
only when present and truthy (a numeric `0` is falsy in JS). -/
def applyStatus (status : Option Nat) (res : ResState) : ResState :=
  match status with
  | some s => if s ≠ 0 then { res with events := res.events ++ [.setStatus s] } else res
  | none => res

/-- `res.send(r)`: record the payload and mark headers as sent. -/
def applySend (v : Val) (res : ResState) : ResState :=
  { headersSent := true, events := res.events ++ [.send v] }

/-- The send branch of the route handler: optionally set the declared
status, then send the payload. -/
def sendResult (status : Option Nat) (v : Val) (res : ResState) : ResState :=
  applySend v (applyStatus status res)

/-- `routeHandler` from `src/express.ts`, lines 77–105, after the
controller-method call (abstracted as its `MethodResult`):

* a synchronous throw escapes the handler (there is no `try`/`catch`);
* a promise resolving to a defined value is sent unless headers are
  already sent (`!res.headersSent && typeof r !== 'undefined'`),
  setting the declared status first; a rejection goes to
  `.catch(next)`;
* an immediate defined value is sent under the same guard;
* an undefined result is never sent. -/
def routeHandler (status : Option Nat) (result : MethodResult) (res : ResState) :
    HandlerOutcome :=
  match result with
  | .throws e => .uncaught e
  | .promise (.ok (some v)) =>
    if !res.headersSent then .ok (sendResult status v res) [] else .ok res []
  | .promise (.ok none) => .ok res []
  | .promise (.error e) => .ok res [e]
  | .immediate (some v) =>
    if !res.headersSent then .ok (sendResult status v res) [] else .ok res []
  | .immediate none => .ok res []

/-- A route declaration from the metadata module: HTTP method, url and
the ordered per-route middleware list.  Middleware references are
opaque at this level and identified by numbers. -/
structure Route : Type where
  method : String
  url : String
  middleware : List Nat
  deriving DecidableEq

/-- A route group (`meta.routes[methodName]`): the declared routes of
one controller method plus its optional response status. -/
structure RouteGroup : Type where
  routes : List Route
  status : Option Nat
  deriving DecidableEq

/-- `ExpressMeta` as `attachMiddleware` reads it: the controller's base
url, its controller-level middleware list, and the mapping from method
name to route group (an association list keyed by method name). -/
structure ExpressMeta : Type where
  url : String
  middleware : List Nat
  routes : List (String × RouteGroup)
  deriving DecidableEq

/-- Replace the value bound to `key` in an association list (first
occurrence), leaving other entries untouched. -/
def updateAssoc (key : String) (g : RouteGroup) :
    List (String × RouteGroup) → List (String × RouteGroup)
  | [] => []
  | (k, v) :: rest =>
    if k = key then (k, g) :: rest else (k, v) :: updateAssoc key g rest

/-- `attachMiddleware` from `src/express.ts`, lines 165–173, acting on
the controller's metadata record:

* if `meta.url !== ''`, prepend (`unshift`) to the controller-level
  middleware list;
* else if the property is a non-empty name of a declared route group
  (`property && property in meta.routes`), prepend to the first route
  declaration's middleware list — reading `routes[0]` of an empty
  group is a `TypeError` (`.error`);
* otherwise do nothing.

The prototype/target resolution of the first line is identity at this
level: the function acts on the metadata of the resolved target. -/
def attachMiddleware (meta : ExpressMeta) (property : Option String) (mw : Nat) :
    Except Err ExpressMeta :=
  if meta.url ≠ "" then
    .ok { meta with middleware := mw :: meta.middleware }
  else
    match property with
    | some p =>
      if p ≠ "" then
        match (meta.routes.lookup p : Option RouteGroup) with
        | some g =>
          match g.routes with
          | [] => .error .typeError
          | r :: rs =>
            .ok { meta with
                  routes := updateAssoc p
                    { g with routes := { r with middleware := mw :: r.middleware } :: rs }
                    meta.routes }
        | none => .ok meta
      else .ok meta
    | none => .ok meta

/-- The arguments a middleware handler receives and may pass on:
opaque markers for the request, the response and the `next`
continuation. -/
inductive MWArg : Type where
  | reqA | resA | nextA
  deriving DecidableEq

/-- What the underlying `use` method / middleware function does when it
is actually invoked: return a plain value, return a promise that
resolves, return a promise that rejects, or throw synchronously. -/
inductive UseBehavior : Type where
  | value : UseBehavior
  | promiseOk : UseBehavior
  | promiseErr (e : Err) : UseBehavior
  | throws (e : Err) : UseBehavior
  deriving DecidableEq

/-- A middleware reference as the two `invokeMiddleware` versions can
receive it at runtime: absent (falsy), a plain function (no
`prototype.use`), a class — i.e. a constructor function whose
prototype exposes `use` —, or a non-function instance object exposing
`use`. -/
inductive MWRef : Type where
  | undefined : MWRef
  | plainFn (b : UseBehavior) : MWRef
  | classWithUse (b : UseBehavior) : MWRef
  | instanceWithUse (b : UseBehavior) : MWRef
  deriving DecidableEq

/-- The `this` binding a `use`/function invocation receives: the args
array (as in `use.apply(args)`), a freshly constructed instance
(identified by its allocation id), or the plain function itself. -/
inductive ThisV : Type where
  | argsArray : ThisV
  | inst (id : Nat) : ThisV
  | fnItself : ThisV
  deriving DecidableEq

/-- One invocation of the resolved middleware callable: its `this`
binding and the argument list it received. -/
structure UseCall : Type where
  thisv : ThisV
  args : List MWArg
  deriving DecidableEq

/-- The observable trace of one middleware-handler invocation: calls of
the resolved callable, allocation ids of instances constructed, the
arguments of `next` calls (`none` = plain `next()`), and promise
rejections left unhandled. -/
structure MWTrace : Type where
  useCalls : List UseCall
  created : List Nat
  nextCalls : List (Option Err)
  unhandled : List Err
  deriving DecidableEq

/-- `invokeMiddleware`, first version (`src` lines 196–212):

```
const next = args[args.length - 1]
try {
  if (!middleware) return next()
  middleware.use.apply(args)
} catch (err) { next(err) }
```

`middleware.use.apply(args)` passes `args` as the `this` binding and
NO argument list, so `use` runs with zero arguments; on a plain
function or a constructor, `middleware.use` is `undefined` and the
call raises a `TypeError`, caught and forwarded to `next`; a rejected
promise returned by `use` is discarded un-awaited, so its rejection
stays unhandled. -/
def invokeMiddlewareV1 (mw : MWRef) (args : List MWArg) : MWTrace :=
  match mw with
  | .undefined => { useCalls := [], created := [], nextCalls := [none], unhandled := [] }
  | .plainFn _ =>
    { useCalls := [], created := [], nextCalls := [some .typeError], unhandled := [] }
  | .classWithUse _ =>
    { useCalls := [], created := [], nextCalls := [some .typeError], unhandled := [] }
  | .instanceWithUse b =>
    let call : UseCall := { thisv := .argsArray, args := [] }
    match b with
    | .value => { useCalls := [call], created := [], nextCalls := [], unhandled := [] }
    | .promiseOk => { useCalls := [call], created := [], nextCalls := [], unhandled := [] }
    | .promiseErr e =>
      { useCalls := [call], created := [], nextCalls := [], unhandled := [e] }
    | .throws e =>
      { useCalls := [call], created := [], nextCalls := [some e], unhandled := [] }

/-- The middleware instance `getMiddlewareInstance` resolves to:
nothing, the plain function itself, or a fresh class instance
(identified by its allocation id) carrying the `use` behavior. -/
inductive MWInstance : Type where
  | undefined : MWInstance
  | fn (b : UseBehavior) : MWInstance
  | inst (id : Nat) (b : UseBehavior) : MWInstance
  deriving DecidableEq

/-- `getMiddlewareInstance` (`src` lines 265–269): for a function
reference, instantiate it when its prototype exposes `use` (a fresh
allocation: the id is drawn from the counter), else return the
function itself; for anything that is not a function the body is
skipped and the result is `undefined`. -/
def getMiddlewareInstance (mw : MWRef) (ctr : Nat) : MWInstance × Nat :=
  match mw with
  | .plainFn b => (.fn b, ctr)
  | .classWithUse b => (.inst ctr b, ctr + 1)
  | .instanceWithUse _ => (.undefined, ctr)
  | .undefined => (.undefined, ctr)

/-- The tail of `invokeMiddleware` (second version) once a callable
`handler` was resolved: invoke it with the full argument list bound to
`this = instance`, forward a synchronous throw to `next(err)` and a
rejected returned promise to `result.catch(next)`. -/
def runResolvedHandler (thisv : ThisV) (b : UseBehavior) (args : List MWArg)
    (created : List Nat) : MWTrace :=
  let call : UseCall := { thisv := thisv, args := args }
  match b with
  | .value => { useCalls := [call], created := created, nextCalls := [], unhandled := [] }
  | .promiseOk => { useCalls := [call], created := created, nextCalls := [], unhandled := [] }
  | .promiseErr e =>
    { useCalls := [call], created := created, nextCalls := [some e], unhandled := [] }
  | .throws e =>
    { useCalls := [call], created := created, nextCalls := [some e], unhandled := [] }

/-- `invokeMiddleware`, second version (`src` lines 240–263):

```
const instance = await getMiddlewareInstance(middleware)
if (!instance) return next()
const handler = instance?.use ?? instance
const result = typeof handler === 'function' ? handler.apply(instance, args) : instance
if (result instanceof Promise) result.catch(next)
```

wrapped in `try { ... } catch (err) { next(err) }`.  Returns the trace
together with the advanced allocation counter. -/
def invokeMiddlewareV2 (mw : MWRef) (args : List MWArg) (ctr : Nat) : MWTrace × Nat :=
  let (instv, ctr2) := getMiddlewareInstance mw ctr
  match instv with
  | .undefined =>
    ({ useCalls := [], created := [], nextCalls := [none], unhandled := [] }, ctr2)
  | .fn b => (runResolvedHandler .fnItself b args [], ctr2)
  | .inst id b => (runResolvedHandler (.inst id) b args [id], ctr2)

/-- `middlewareHandler`, first version (`src` lines 187–191): the
produced request handler calls `invokeMiddleware(middleware,
[req, res, next]).catch(next)`; the async body catches internally, so
the outer `.catch` never fires and the handler's trace is the
invocation's trace. -/
def middlewareHandlerV1 (mw : MWRef) (args : List MWArg) : MWTrace :=
  invokeMiddlewareV1 mw args

/-- `middlewareHandler`, second version (`src` lines 231–235): same
wrapper around the second `invokeMiddleware`. -/
def middlewareHandlerV2 (mw : MWRef) (args : List MWArg) (ctr : Nat) : MWTrace × Nat :=
  invokeMiddlewareV2 mw args ctr

/-- Modelled from the spec: the `HttpError` base class
(`src/errors/HttpError.ts` is not among the given sources).  Per §4.5
it is an Error subclass whose constructor receives the numeric status
code, kept as a readable attribute, and whose message — inherited from
`Error` constructed without arguments — defaults to the empty
string. -/
structure HttpError : Type where
  status : Nat
  message : String
  name : String
  deriving DecidableEq

/-- Modelled from the spec: constructing the `HttpError` base with a
status code (`super(status)`) yields an error with that status and an
empty default message. -/
def mkHttpError (status : Nat) : HttpError :=
  { status := status, message := "", name := "Error" }

/-- `ConflictError` from `src/errors/ConflictError.ts`: `super(409)`,
the class field sets `name = 'ConflictError'`, and
`if (message) this.message = message` assigns the message only when it
is truthy (a present empty string is falsy and keeps the default). -/
def ConflictError (message : Option String) : HttpError :=
  let e := { mkHttpError 409 with name := "ConflictError" }
  match message with
  | some m => if m ≠ "" then { e with message := m } else e
  | none => e

/-- `InternalServerError` from `src/errors/InternalServerError.ts`:
`super(500)` and the same truthiness-guarded message assignment (the
message argument is required). -/
def InternalServerError (message : String) : HttpError :=
  let e := { mkHttpError 500 with name := "InternalServerError" }
  if message ≠ "" then { e with message := message } else e

/-- The status events emitted for a declared response status. -/
def statusEvents (status : Option Nat) : List REvent :=
  match status with
  | some s => [.setStatus s]
  | none => []

/-- C9: a `ConflictError` constructed with no message carries status
409 and an empty message; constructed with message `m` it carries
status 409 and message `m` (in particular for `"X"`); the status code
is a readable attribute in every case. -/
theorem conflictError_spec :
    (ConflictError none).status = 409 ∧ (ConflictError none).message = "" ∧
    (∀ m : String,
      (ConflictError (some m)).status = 409 ∧ (ConflictError (some m)).message = m) ∧
    (∀ msg : Option String, (ConflictError msg).status = 409) := by
  refine ⟨rfl, rfl, ?_, ?_⟩
  · intro m
    by_cases h : m = "" <;> simp [ConflictError, mkHttpError, h]
  · intro msg
    cases msg with
    | none => rfl
    | some m => by_cases h : m = "" <;> simp [ConflictError, mkHttpError, h]

/-- C2: when the controller method's promise rejects with `e`, the
route handler invokes `next` exactly once with `e`, and the response
state is untouched (no send, no status). -/
theorem routeHandler_reject (status : Option Nat) (e : Err) (res : ResState) :
    routeHandler status (.promise (.error e)) res = .ok res [e] := rfl

/-- C1: when the controller method's promise resolves to a defined
value `v` and headers are not yet sent, the route handler emits the
declared status (when one is declared — declared HTTP status codes are
nonzero) followed by exactly one `send v`; when the promise resolves
to `undefined`, or headers are already sent, no response event is
emitted at all. -/
theorem routeHandler_resolve (status : Option Nat) (res : ResState)
    (hs : ∀ s, status = some s → s ≠ 0) :
    (∀ v : Val, res.headersSent = false →
      routeHandler status (.promise (.ok (some v))) res =
        .ok { headersSent := true,
              events := res.events ++ statusEvents status ++ [.send v] } []) ∧
    (routeHandler status (.promise (.ok none)) res = .ok res []) ∧
    (res.headersSent = true → ∀ r : Option Val,
      routeHandler status (.promise (.ok r)) res = .ok res []) := by
  refine ⟨?_, rfl, ?_⟩
  · intro v h
    cases status with
    | none =>
      simp [routeHandler, h, sendResult, applySend, applyStatus, statusEvents]
    | some s =>
      have hs2 : s ≠ 0 := hs s rfl
      simp [routeHandler, h, sendResult, applySend, applyStatus, statusEvents, hs2]
  · intro h r
    cases r <;> simp [routeHandler, h]

/-- Witness for `routeHandler_resolve` at a concrete declared status,
payload and fresh response. -/
theorem routeHandler_resolve_witness :
    routeHandler (some 201) (.promise (.ok (some (.str "ok"))))
        { headersSent := false, events := [] } =
      .ok { headersSent := true, events := [.setStatus 201, .send (.str "ok")] } [] := by
  have h := (routeHandler_resolve (some 201) { headersSent := false, events := [] }
    (fun s hsome => by cases hsome; decide)).1 (.str "ok") rfl
  simpa [statusEvents] using h

/-- C4 counterexample: a synchronous throw from the controller method
escapes the generated route handler uncaught — `next` is never
invoked with the error, contradicting the claim that every
synchronous throw is caught at the adapter boundary. -/
theorem routeHandler_syncThrow_uncaught :
    routeHandler none (.throws (.user 7)) { headersSent := false, events := [] } =
      .uncaught (.user 7) ∧
    routeHandler none (.throws (.user 7)) { headersSent := false, events := [] } ≠
      .ok { headersSent := false, events := [] } [.user 7] := by
  refine ⟨rfl, ?_⟩
  intro h
  exact HandlerOutcome.noConfusion h

/-- C4 (amended): middleware errors — synchronous throws and
asynchronous rejections alike — are caught by the (current, second
version) middleware handler and forwarded to `next` exactly once,
leaving no unhandled rejection, and asynchronous controller rejections
are forwarded by the route handler; a synchronous controller throw,
however, escapes the route handler uncaught. -/
theorem adapter_errors_forwarded :
    (∀ mw args ctr, (invokeMiddlewareV2 mw args ctr).1.unhandled = []) ∧
    (∀ (b : UseBehavior) args ctr e, (b = .throws e ∨ b = .promiseErr e) →
      (invokeMiddlewareV2 (.plainFn b) args ctr).1.nextCalls = [some e] ∧
      (invokeMiddlewareV2 (.classWithUse b) args ctr).1.nextCalls = [some e]) ∧
    (∀ status e res, routeHandler status (.promise (.error e)) res = .ok res [e]) ∧
    (∀ status e res, routeHandler status (.throws e) res = .uncaught e) := by
  refine ⟨?_, ?_, fun _ _ _ => rfl, fun _ _ _ => rfl⟩
  · intro mw args ctr
    cases mw with
    | undefined => rfl
    | plainFn b =>
      cases b <;> rfl
    | classWithUse b =>
      cases b <;> rfl
    | instanceWithUse b => rfl
  · intro b args ctr e hb
    cases hb with
    | inl h => subst h; exact ⟨rfl, rfl⟩
    | inr h => subst h; exact ⟨rfl, rfl⟩

/-- Witness for `adapter_errors_forwarded`: a class middleware whose
`use` throws error 3 leads to exactly one `next` call with that
error. -/
theorem adapter_errors_forwarded_witness :
    (invokeMiddlewareV2 (.classWithUse (.throws (.user 3))) [.reqA, .resA, .nextA] 0).1.nextCalls
      = [some (.user 3)] :=
  (adapter_errors_forwarded.2.1 (.throws (.user 3)) [.reqA, .resA, .nextA] 0 (.user 3)
    (Or.inl rfl)).2

/-- C5: for a class middleware reference (a function whose prototype
exposes `use`), each invocation of the produced handler constructs a
fresh instance and invokes `use` on it with the full argument triple;
two consecutive invocations construct instances with distinct
allocation ids, so no instance is shared between them. -/
theorem middlewareHandler_freshInstance (b : UseBehavior) (args : List MWArg) (ctr : Nat) :
    (middlewareHandlerV2 (.classWithUse b) args ctr).1.created = [ctr] ∧
    (middlewareHandlerV2 (.classWithUse b) args ctr).1.useCalls =
      [{ thisv := .inst ctr, args := args }] ∧
    (middlewareHandlerV2 (.classWithUse b) args ctr).2 = ctr + 1 ∧
    (middlewareHandlerV2 (.classWithUse b) args (ctr + 1)).1.created = [ctr + 1] ∧
    (middlewareHandlerV2 (.classWithUse b) args (ctr + 1)).1.useCalls =
      [{ thisv := .inst (ctr + 1), args := args }] ∧
    ((ctr : Nat) != ctr + 1) = true := by
  refine ⟨?_, ?_, ?_, ?_, ?_, ?_⟩
  all_goals
    first
    | (cases b <;>
        rfl)
    | simp [bne_iff_ne]

/-- C10 counterexample: on a class middleware with a `use` method, the
first `invokeMiddleware` version forwards a `TypeError` to `next`
without ever invoking `use`, while the second constructs an instance
and invokes `use` with the full `(req, res, next)` argument list — the
two implementations are not behaviorally equivalent. -/
theorem invokeMiddleware_versions_differ :
    invokeMiddlewareV1 (.classWithUse .value) [.reqA, .resA, .nextA] =
      { useCalls := [], created := [], nextCalls := [some .typeError], unhandled := [] } ∧
    (invokeMiddlewareV2 (.classWithUse .value) [.reqA, .resA, .nextA] 0).1 =
      { useCalls := [{ thisv := .inst 0, args := [.reqA, .resA, .nextA] }],
        created := [0], nextCalls := [], unhandled := [] } ∧
    invokeMiddlewareV1 (.classWithUse .value) [.reqA, .resA, .nextA] ≠
      (invokeMiddlewareV2 (.classWithUse .value) [.reqA, .resA, .nextA] 0).1 := by
  refine ⟨rfl, rfl, ?_⟩
  decide

/-- C10 (amended): the two `invokeMiddleware` versions agree only on an
absent middleware reference (both invoke `next()` once and do nothing
else); on every non-absent reference shape they diverge: on class
middleware as the counterexample shows (V1: `TypeError` to `next`, no
`use` call; V2: fresh instance, `use` invoked with the arguments), on
a plain function V1 forwards a `TypeError` to `next` without invoking
the function while V2 invokes it with the full argument list, and on
an instance middleware V1 invokes `use` with `this` bound to the args
array and zero arguments while V2 invokes `next()` without calling
`use` at all. -/
theorem invokeMiddleware_versions_agreement (args : List MWArg) (ctr : Nat) :
    invokeMiddlewareV1 .undefined args = (invokeMiddlewareV2 .undefined args ctr).1 ∧
    (∀ b, invokeMiddlewareV1 (.classWithUse b) args =
        { useCalls := [], created := [], nextCalls := [some .typeError], unhandled := [] } ∧
      (invokeMiddlewareV2 (.classWithUse b) args ctr).1.useCalls =
        [{ thisv := .inst ctr, args := args }] ∧
      (invokeMiddlewareV2 (.classWithUse b) args ctr).1.created = [ctr]) ∧
    (∀ b, invokeMiddlewareV1 (.plainFn b) args =
        { useCalls := [], created := [], nextCalls := [some .typeError], unhandled := [] } ∧
      (invokeMiddlewareV2 (.plainFn b) args ctr).1.useCalls =
        [{ thisv := .fnItself, args := args }] ∧
      (invokeMiddlewareV2 (.plainFn b) args ctr).1.created = []) ∧
    (∀ b, (invokeMiddlewareV1 (.instanceWithUse b) args).useCalls =
        [{ thisv := .argsArray, args := [] }] ∧
      (invokeMiddlewareV2 (.instanceWithUse b) args ctr).1 =
        { useCalls := [], created := [], nextCalls := [none], unhandled := [] }) := by
  refine ⟨rfl, ?_, ?_, ?_⟩
  · intro b
    refine ⟨rfl, ?_, ?_⟩ <;> cases b <;> rfl
  · intro b
    refine ⟨rfl, ?_, ?_⟩ <;> cases b <;> rfl
  · intro b
    refine ⟨?_, rfl⟩
    cases b <;> rfl

/-- C3 counterexample: on a controller whose metadata has the
empty/root base path `""` and controller-level middleware `[1]`,
attaching middleware `2` (controller-level target, no method name) is
a no-op — the controller-level list stays `[1]`, not `[2, 1]` as the
claim requires. -/
theorem attachMiddleware_rootPath_counterexample :
    attachMiddleware
        { url := "", middleware := [1],
          routes := [("m", { routes := [{ method := "get", url := "/", middleware := [] }],
                             status := none })] }
        none 2 =
      .ok { url := "", middleware := [1],
            routes := [("m", { routes := [{ method := "get", url := "/", middleware := [] }],
                               status := none })] } ∧
    ([1] : List Nat) ≠ [2, 1] := by
  refine ⟨rfl, ?_⟩
  decide

/-- C3 (amended): `attachMiddleware` prepends to the controller-level
middleware list — `[A]` becomes `[B, A]` — exactly when the metadata's
base path is NON-empty (regardless of any method name); when the base
path is empty and the given non-empty method name names a declared
route group, it prepends to the first route declaration's middleware
list of that group. -/
theorem attachMiddleware_prepend_spec (meta : ExpressMeta) (mw : Nat) :
    (∀ property, meta.url ≠ "" →
      attachMiddleware meta property mw =
        .ok { meta with middleware := mw :: meta.middleware }) ∧
    (∀ p g r rs, meta.url = "" → p ≠ "" →
      meta.routes.lookup p = some g → g.routes = r :: rs →
      attachMiddleware meta (some p) mw =
        .ok { meta with
              routes := updateAssoc p
                { g with routes := { r with middleware := mw :: r.middleware } :: rs }
                meta.routes }) := by
  constructor
  · intro property hurl
    simp [attachMiddleware, hurl]
  · intro p g r rs hurl hp hlook hroutes
    simp [attachMiddleware, hurl, hp, hlook, hroutes]

/-- Witness for `attachMiddleware_prepend_spec`: a non-empty base path
gives `[2, 1]` at controller level; an empty base path with a declared
method name prepends to the first route's middleware list. -/
theorem attachMiddleware_prepend_spec_witness :
    attachMiddleware { url := "/u", middleware := [1], routes := [] } none 2 =
      .ok { url := "/u", middleware := [2, 1], routes := [] } ∧
    attachMiddleware
        { url := "", middleware := [1],
          routes := [("m", { routes := [{ method := "get", url := "/", middleware := [5] }],
                             status := none })] }
        (some "m") 2 =
      .ok { url := "", middleware := [1],
            routes := [("m", { routes := [{ method := "get", url := "/", middleware := [2, 5] }],
                               status := none })] } := by
  constructor
  · exact (attachMiddleware_prepend_spec { url := "/u", middleware := [1], routes := [] } 2).1
      none (by decide)
  · have h := (attachMiddleware_prepend_spec
      { url := "", middleware := [1],
        routes := [("m", { routes := [{ method := "get", url := "/", middleware := [5] }],
                           status := none })] } 2).2
      "m" { routes := [{ method := "get", url := "/", middleware := [5] }], status := none }
      { method := "get", url := "/", middleware := [5] } [] rfl (by decide) rfl rfl
    simpa [updateAssoc] using h

/-- C8 counterexample: with a NON-empty base path, attaching middleware
under a method name that names no declared route group still mutates
the metadata — the controller-level list changes from `[1]` to
`[2, 1]` — contradicting the claim that this is always a no-op. -/
theorem attachMiddleware_unknownMethod_counterexample :
    (([("m", { routes := [{ method := "get", url := "/", middleware := [] }],
               status := none })] : List (String × RouteGroup)).lookup "zzz" = none) ∧
    attachMiddleware
        { url := "/x", middleware := [1],
          routes := [("m", { routes := [{ method := "get", url := "/", middleware := [] }],
                             status := none })] }
        (some "zzz") 2 =
      .ok { url := "/x", middleware := [2, 1],
            routes := [("m", { routes := [{ method := "get", url := "/", middleware := [] }],
                               status := none })] } ∧
    ([2, 1] : List Nat) ≠ [1] := by
  refine ⟨rfl, rfl, ?_⟩
  decide

/-- C8 (amended): when the metadata's base path is empty, attaching
middleware under a method name that names no declared route group
leaves the metadata entirely unchanged and raises no error. -/
theorem attachMiddleware_unknownMethod_noop (meta : ExpressMeta)
    (property : Option String) (mw : Nat)
    (hurl : meta.url = "")
    (hp : ∀ p, property = some p → meta.routes.lookup p = none) :
    attachMiddleware meta property mw = .ok meta := by
  cases property with
  | none => simp [attachMiddleware, hurl]
  | some p =>
    by_cases hpe : p = ""
    · simp [attachMiddleware, hurl, hpe]
    · simp [attachMiddleware, hurl, hpe, hp p rfl]

/-- Witness for `attachMiddleware_unknownMethod_noop` at a concrete
metadata record and unknown method name. -/
theorem attachMiddleware_unknownMethod_noop_witness :
    attachMiddleware
        { url := "", middleware := [1],
          routes := [("m", { routes := [{ method := "get", url := "/", middleware := [] }],
                             status := none })] }
        (some "zzz") 2 =
      .ok { url := "", middleware := [1],
            routes := [("m", { routes := [{ method := "get", url := "/", middleware := [] }],
                               status := none })] } :=
  attachMiddleware_unknownMethod_noop _ (some "zzz") 2 rfl
    (fun p hps => by cases hps; rfl)

theorem length_setIdx (l : List ArgV) (i : Nat) (v : ArgV) :
    (setIdx l i v).length = max l.length (i + 1) := by
  unfold setIdx
  split
  · rename_i h
    simp only [List.length_set]
    omega
  · rename_i h
    simp only [List.length_append, List.length_replicate, List.length_cons, List.length_nil]
    omega

theorem getArg_setIdx_self (l : List ArgV) (i : Nat) (v : ArgV) :
    getArg (setIdx l i v) i = v := by
  unfold setIdx getArg
  split
  · rename_i h
    simp [List.getD_eq_getElem?_getD, List.getElem?_set_self h]
  · rename_i h
    have h2 : ((l ++ List.replicate (i - l.length) (ArgV.val .undefined)) ++ [v])[i]? = some v := by
      rw [List.getElem?_append_right (by simp; omega)]
      have h3 : i - (l ++ List.replicate (i - l.length) (ArgV.val .undefined)).length = 0 := by
        simp
        omega
      rw [h3]
      rfl
    simp only [List.getD_eq_getElem?_getD]
    rw [h2]
    rfl

theorem getArg_setIdx_ne (l : List ArgV) (i j : Nat) (v : ArgV) (h : i ≠ j) :
    getArg (setIdx l i v) j = getArg l j := by
  unfold setIdx getArg
  simp only [List.getD_eq_getElem?_getD]
  split
  · rw [List.getElem?_set_ne h]
  · rename_i hge
    by_cases hj : j < l.length
    · rw [List.getElem?_append_left (by simp; omega), List.getElem?_append_left hj]
    · have hr : l[j]? = none := List.getElem?_eq_none (by omega)
      by_cases hji : j < i
      · rw [List.getElem?_append_left (by simp; omega),
          List.getElem?_append_right (by omega), List.getElem?_replicate]
        have h4 : j - l.length < i - l.length := by omega
        simp [h4, hr]
      · have h5 : ((l ++ List.replicate (i - l.length) (ArgV.val .undefined)) ++ [v])[j]? = none :=
          List.getElem?_eq_none (by simp; omega)
        rw [h5, hr]

theorem getArg_nil (j : Nat) : getArg [] j = ArgV.val .undefined := by
  simp [getArg]

theorem extract_foldl_length_mono (req : Val) (ps : List ParameterConfiguration) :
    ∀ l : List ArgV,
      l.length ≤ (List.foldl (fun args q => setIdx args q.index (dispatch req q)) l ps).length := by
  induction ps with
  | nil => intro l; simp
  | cons p ps ih =>
    intro l
    have h1 : l.length ≤ (setIdx l p.index (dispatch req p)).length := by
      rw [length_setIdx]
      omega
    exact le_trans h1 (ih _)

theorem extract_foldl_preserve (req : Val) (ps : List ParameterConfiguration) :
    ∀ (l : List ArgV) (j : Nat), (∀ p ∈ ps, p.index ≠ j) →
      getArg (List.foldl (fun args q => setIdx args q.index (dispatch req q)) l ps) j =
        getArg l j := by
  induction ps with
  | nil => intro l j _; rfl
  | cons p ps ih =>
    intro l j hj
    rw [List.foldl_cons, ih _ j (fun q hq => hj q (List.mem_cons_of_mem p hq)),
      getArg_setIdx_ne _ _ _ _ (hj p (List.mem_cons_self p ps))]

/-- C6: for a declared parameter list with (per the documented
invariant) pairwise-distinct positional indices, `extractParameters`
builds an array covering every declared index — its length is at least
`max(positionalIndex) + 1` —, holding at each declared index the value
dispatched by that parameter's source kind, and `undefined` at every
undeclared index. -/
theorem extractParameters_spec (req : Val) (params : List ParameterConfiguration)
    (hnodup : (params.map (fun p => p.index)).Nodup) :
    (∀ p ∈ params, p.index < (extractParameters req params).length ∧
      getArg (extractParameters req params) p.index = dispatch req p) ∧
    (∀ j : Nat, (∀ p ∈ params, p.index ≠ j) →
      getArg (extractParameters req params) j = ArgV.val .undefined) := by
  constructor
  · intro p hp
    obtain ⟨s, t, rfl⟩ := List.append_of_mem hp
    have hsplit : extractParameters req (s ++ p :: t) =
        List.foldl (fun args q => setIdx args q.index (dispatch req q))
          (setIdx (List.foldl (fun args q => setIdx args q.index (dispatch req q)) [] s)
            p.index (dispatch req p)) t := by
      simp [extractParameters, List.foldl_append]
    have ht : ∀ q ∈ t, q.index ≠ p.index := by
      intro q hq he
      have h1 := hnodup
      rw [List.map_append, List.map_cons] at h1
      have h2 := h1.of_append_right
      rw [List.nodup_cons] at h2
      exact h2.1 (List.mem_map.mpr ⟨q, hq, he⟩)
    constructor
    · rw [hsplit]
      have hm := extract_foldl_length_mono req t
        (setIdx (List.foldl (fun args q => setIdx args q.index (dispatch req q)) [] s)
          p.index (dispatch req p))
      have h2 : p.index <
          (setIdx (List.foldl (fun args q => setIdx args q.index (dispatch req q)) [] s)
            p.index (dispatch req p)).length := by
        rw [length_setIdx]
        omega
      omega
    · rw [hsplit, extract_foldl_preserve req t _ p.index ht, getArg_setIdx_self]
  · intro j hj
    have h1 : extractParameters req params =
        List.foldl (fun args q => setIdx args q.index (dispatch req q)) [] params := rfl
    rw [h1, extract_foldl_preserve req params [] j hj, getArg_nil]

/-- Witness for `extractParameters_spec`: two declared parameters (a
path parameter at index 1, the response at index 0) against a request
whose `params` sub-object holds `id = "42"`; index 5 is undeclared and
reads back `undefined`. -/
theorem extractParameters_spec_witness :
    (([⟨some "id", 1, .PARAMS⟩, ⟨none, 0, .RESPONSE⟩] :
        List ParameterConfiguration).map (fun p => p.index)).Nodup ∧
    getArg (extractParameters (.obj [("params", .obj [("id", .str "42")])])
      [⟨some "id", 1, .PARAMS⟩, ⟨none, 0, .RESPONSE⟩]) 1 = ArgV.val (.str "42") ∧
    getArg (extractParameters (.obj [("params", .obj [("id", .str "42")])])
      [⟨some "id", 1, .PARAMS⟩, ⟨none, 0, .RESPONSE⟩]) 0 = ArgV.resV ∧
    getArg (extractParameters (.obj [("params", .obj [("id", .str "42")])])
      [⟨some "id", 1, .PARAMS⟩, ⟨none, 0, .RESPONSE⟩]) 5 = ArgV.val .undefined := by
  refine ⟨by decide, ?_, ?_, ?_⟩
  · have h := ((extractParameters_spec (.obj [("params", .obj [("id", .str "42")])])
      [⟨some "id", 1, .PARAMS⟩, ⟨none, 0, .RESPONSE⟩] (by decide)).1
      ⟨some "id", 1, .PARAMS⟩ (by simp)).2
    simpa [dispatch, getParam, lookupField, truthy, List.lookup] using h
  · have h := ((extractParameters_spec (.obj [("params", .obj [("id", .str "42")])])
      [⟨some "id", 1, .PARAMS⟩, ⟨none, 0, .RESPONSE⟩] (by decide)).1
      ⟨none, 0, .RESPONSE⟩ (by simp)).2
    simpa [dispatch] using h
  · exact (extractParameters_spec (.obj [("params", .obj [("id", .str "42")])])
      [⟨some "id", 1, .PARAMS⟩, ⟨none, 0, .RESPONSE⟩] (by decide)).2 5 (by decide)

/-- C7: a named-source parameter (path/query/body/header/cookie) whose
request sub-object is missing (more generally: falsy) dispatches to
the named field of the request object itself — the absent sub-object
is never an error. -/
theorem extractParameters_missingSubObject_fallback
    (req : Val) (p : ParameterConfiguration) (key n : String)
    (hk : subObjectKey p.type = some key)
    (hn : p.name = some n) (hne : n ≠ "")
    (hmiss : truthy (lookupField req key) = false) :
    getArg (extractParameters req [p]) p.index = ArgV.val (lookupField req n) := by
  have h1 : extractParameters req [p] = setIdx [] p.index (dispatch req p) := rfl
  rw [h1, getArg_setIdx_self]
  cases htype : p.type <;> simp [subObjectKey, htype] at hk <;>
    subst hk <;>
    simp [dispatch, htype, getParam, hn, hne, hmiss]

/-- Witness for `extractParameters_missingSubObject_fallback`: a cookie
parameter named `token` against a request with no `cookies` sub-object
but a `token` field of its own. -/
theorem extractParameters_missingSubObject_fallback_witness :
    getArg (extractParameters (.obj [("token", .str "t")]) [⟨some "token", 0, .COOKIES⟩]) 0 =
      ArgV.val (.str "t") := by
  have h := extractParameters_missingSubObject_fallback (.obj [("token", .str "t")])
    ⟨some "token", 0, .COOKIES⟩ "cookies" "token" rfl rfl (by decide) rfl
  simpa [lookupField, List.lookup] using h

end ExpressAdapter
